import Mathlib

/-!
Verification of the RouteIt-Framework VLAN registry (src/route_it/src/rti_vlan.c)
against its natural-language specification.

Shallow embedding conventions:
* Pointers and size_t values are natural numbers; pointer and size_t
  arithmetic is taken modulo 2^64 where the C code can wrap.
* A table record (RTI_VLAN_RECORD, a pointer to a descriptor) is modelled as
  Option RTI_VLAN_DESC; none is the NULL record.  Because the registry never
  mutates a descriptor through a stored pointer, a stored pointer is
  identified with the descriptor value it references; the ifx and name
  pointer fields of a descriptor are kept as raw addresses.
* Memory is a total function from byte addresses to the record whose first
  byte sits at that address.  memset, memcpy and memmove are modelled at
  record granularity: a record read is affected exactly when the eight bytes
  of the record lie inside the written range.
* Reading the descriptor ID of a NULL record (a null pointer dereference in
  the C code) is modelled as a crash: scan functions that can perform such a
  read return an Option, with none denoting the crash.
* The module is compiled with RTI_ENABLE_DYNAMIC_VLAN == 1, so the active
  window used by every operation is the pair of mutable globals
  g_RTI_vlanTableStartPtr / g_RTI_vlanTableEndPtr, initialised to the static
  boundary symbols.
-/

namespace RouteIt

/-- 2^64, the modulus of size_t and pointer arithmetic on the target. -/
def W64 : Nat := 2 ^ 64

/-- sizeof(RTI_VLAN_RECORD): one pointer-sized slot, 8 bytes. -/
def recSize : Nat := 8

/-- The RTI_ERR error enumeration from rti_internal.h. -/
inductive RTI_ERR where
  | RTI_OK
  | RTI_ERR_INVALID_PARAM
  | RTI_ERR_NOT_SUPPORTED
  | RTI_ERR_FAILED
  | RTI_ERR_OBJECT_EMPTY
  | RTI_ERR_VLANTABLE_TOO_SHORT
  | RTI_ERR_VLANTABLE_OVERFLOW
  | RTI_ERR_VLANTABLE_NOT_SETUP
deriving DecidableEq

/-- RTI_VLAN_DESC: interface vtable reference, name pointer, numeric ID. -/
structure RTI_VLAN_DESC where
  ifx : Nat
  name : Nat
  id : Nat
deriving DecidableEq

/-- RTI_VLAN_RECORD: a table slot, either a descriptor reference or NULL. -/
abbrev RTI_VLAN_RECORD := Option RTI_VLAN_DESC

/-- The global state of the VLAN module: memory plus the linker boundary
symbols and the three mutable globals of rti_vlan.c. -/
structure VlanState where
  mem : Nat → RTI_VLAN_RECORD
  statStart : Nat
  statEnd : Nat
  dynStart : Nat
  dynEnd : Nat
  usedCnt : Nat

/-- Subtraction of size_t values, as computed by (size_t)e - (size_t)s. -/
def ptrSub (e s : Nat) : Nat := (e + (W64 - s % W64)) % W64

/-- RTI_VlanGetRecordCount: byte span of a window divided by the record size. -/
def RTI_VlanGetRecordCount (recordStart recordEnd : Nat) : Nat :=
  ptrSub recordEnd recordStart / recSize

/-- RTI_VlanIsDynamicUninitialized: the C code tests
start == static start OR end == static end. -/
def RTI_VlanIsDynamicUninitialized (st : VlanState) : Bool :=
  st.dynStart == st.statStart || st.dynEnd == st.statEnd

/-- Number of iterations of a loop running itr from s in steps of recSize
while itr < e. -/
def iterCnt (s e : Nat) : Nat := (e - s + recSize - 1) / recSize

/-- The list of records a window scan visits: the records whose base
addresses are s, s + recSize, ..., s + recSize*(n-1). -/
def windowRecs (mem : Nat → RTI_VLAN_RECORD) (s : Nat) : Nat → List RTI_VLAN_RECORD
  | 0 => []
  | n + 1 => mem s :: windowRecs mem (s + recSize) n

/-- The record at slot index k of the active window. -/
def slot (st : VlanState) (k : Nat) : RTI_VLAN_RECORD :=
  st.mem (st.dynStart + recSize * k)

/-- Loop body of RTIPriv_VlanSelect over the visited records: skips NULL
records, stops at the first descriptor whose ID matches.  Returns the number
of slots stepped over before the loop ended and the copied descriptor. -/
def lscanSel (vlanId : Nat) : List RTI_VLAN_RECORD → Nat × Option RTI_VLAN_DESC
  | [] => (0, none)
  | r :: rs =>
    match r with
    | none =>
      let p := lscanSel vlanId rs
      (p.1 + 1, p.2)
    | some d =>
      if d.id = vlanId then (0, some d)
      else
        let p := lscanSel vlanId rs
        (p.1 + 1, p.2)

/-- RTIPriv_VlanSelect.  Returns the error code and the descriptor copied to
descOut (none when the output was not written). -/
def RTIPriv_VlanSelect (st : VlanState) (vlanId : Nat) :
    RTI_ERR × Option RTI_VLAN_DESC :=
  let s := st.dynStart
  let e := st.dynEnd
  if s = e then (.RTI_ERR_OBJECT_EMPTY, none)
  else
    let p := lscanSel vlanId (windowRecs st.mem s (iterCnt s e))
    if s + recSize * p.1 = e then (.RTI_ERR_INVALID_PARAM, none)
    else (.RTI_OK, p.2)

/-- Loop body of RTI_VlanDynamicIsRegister: reads the ID of every visited
record with no NULL check; none models the null dereference crash. -/
def lscanIsReg (vlanId : Nat) : List RTI_VLAN_RECORD → Option Bool
  | [] => some false
  | none :: _ => none
  | some d :: rs => if d.id = vlanId then some true else lscanIsReg vlanId rs

/-- RTI_VlanDynamicIsRegister; none models a crash during the scan. -/
def RTI_VlanDynamicIsRegister (st : VlanState) (vlan : Option RTI_VLAN_DESC) :
    Option RTI_ERR :=
  match vlan with
  | none => some .RTI_ERR_INVALID_PARAM
  | some v =>
    match lscanIsReg v.id (windowRecs st.mem st.dynStart (iterCnt st.dynStart st.dynEnd)) with
    | none => none
    | some true => some .RTI_OK
    | some false => some .RTI_ERR_INVALID_PARAM

/-- Loop body of RTIDFX_VlanTableUnregister: like lscanIsReg it reads every
record ID with no NULL check.  some (some k) is a match at slot k,
some none is scan exhaustion, none is the null dereference crash. -/
def lscanUnreg (vlanId : Nat) : List RTI_VLAN_RECORD → Option (Option Nat)
  | [] => some none
  | none :: _ => none
  | some d :: rs =>
    if d.id = vlanId then some (some 0)
    else
      match lscanUnreg vlanId rs with
      | none => none
      | some none => some none
      | some (some k) => some (some (k + 1))

/-- RTIDFX_VlanTableUnregister; none models a crash during the scan.  On a
match at itr the code does memmove(itr, itr+1, (end-itr-1)*sizeof(record)),
decrements the used count and NULLs the slot at the new used count. -/
def RTIDFX_VlanTableUnregister (st : VlanState) (id : Nat) :
    Option (RTI_ERR × VlanState) :=
  match lscanUnreg id (windowRecs st.mem st.dynStart (iterCnt st.dynStart st.dynEnd)) with
  | none => none
  | some none => some (.RTI_ERR_INVALID_PARAM, st)
  | some (some k) =>
    let a := st.dynStart + recSize * k
    let nB := ((st.dynEnd - a) / recSize - 1) * recSize
    let mem1 : Nat → RTI_VLAN_RECORD := fun addr =>
      if a ≤ addr ∧ addr + recSize ≤ a + nB then st.mem (addr + recSize)
      else st.mem addr
    let used1 := (st.usedCnt + (W64 - 1)) % W64
    let mem2 : Nat → RTI_VLAN_RECORD := fun addr =>
      if addr = st.dynStart + recSize * used1 then none else mem1 addr
    some (.RTI_OK,
      { st with mem := mem2, usedCnt := used1 })

/-- RTI_VlanDynamicRegister.  Note the order of the guards in the C code:
the overflow check comes before the uninitialized check. -/
def RTI_VlanDynamicRegister (st : VlanState) (vlanDesc : Option RTI_VLAN_DESC) :
    RTI_ERR × VlanState :=
  match vlanDesc with
  | none => (.RTI_ERR_INVALID_PARAM, st)
  | some d =>
    if RTI_VlanGetRecordCount st.dynStart st.dynEnd ≤ st.usedCnt then
      (.RTI_ERR_VLANTABLE_OVERFLOW, st)
    else if RTI_VlanIsDynamicUninitialized st then
      (.RTI_ERR_VLANTABLE_NOT_SETUP, st)
    else
      (.RTI_OK,
        { st with
          mem := fun addr =>
            if addr = st.dynStart + recSize * st.usedCnt then some d
            else st.mem addr,
          usedCnt := (st.usedCnt + 1) % W64 })

/-- The record count the setup migrates, lines 132-139 of rti_vlan.c:
the static record count when the dynamic window tests as uninitialized,
the tracked used count otherwise. -/
def recordCntOld (st : VlanState) : Nat :=
  if RTI_VlanIsDynamicUninitialized st then
    RTI_VlanGetRecordCount st.statStart st.statEnd
  else st.usedCnt

/-- RTI_VlanDynamicSetup.  start is void*, so start + sizeBytes in the C
code advances by sizeBytes bytes.  memset then memcpy, then the window and
used count are updated. -/
def RTI_VlanDynamicSetup (st : VlanState) (start : Option Nat) (sizeBytes : Nat) :
    RTI_ERR × VlanState :=
  let cntOld := recordCntOld st
  match start with
  | none => (.RTI_ERR_INVALID_PARAM, st)
  | some a =>
    if sizeBytes < recSize * cntOld then (.RTI_ERR_VLANTABLE_TOO_SHORT, st)
    else
      let mem1 : Nat → RTI_VLAN_RECORD := fun addr =>
        if a ≤ addr ∧ addr + recSize ≤ a + sizeBytes then none else st.mem addr
      let nB := recSize * cntOld
      let mem2 : Nat → RTI_VLAN_RECORD := fun addr =>
        if a ≤ addr ∧ addr + recSize ≤ a + nB then mem1 (st.dynStart + (addr - a))
        else mem1 addr
      (.RTI_OK,
        { st with
          mem := mem2,
          dynStart := a,
          dynEnd := (a + sizeBytes) % W64,
          usedCnt := cntOld })

/-- The state RTI_VlanDynamicSetup installs on success: the zero-filled
buffer at a with the first recordCntOld records copied in, the window
repointed and the used count carried over (definitionally equal to the
success branch of the setup code). -/
def setupResult (st : VlanState) (a sizeBytes : Nat) : VlanState :=
  { st with
    mem := fun addr =>
      if a ≤ addr ∧ addr + recSize ≤ a + recSize * recordCntOld st then
        (if a ≤ st.dynStart + (addr - a) ∧
            st.dynStart + (addr - a) + recSize ≤ a + sizeBytes then none
          else st.mem (st.dynStart + (addr - a)))
      else
        (if a ≤ addr ∧ addr + recSize ≤ a + sizeBytes then none
          else st.mem addr),
    dynStart := a,
    dynEnd := (a + sizeBytes) % W64,
    usedCnt := recordCntOld st }

/-- RTIDFX_VlanTableForceSet.  start is RTI_VLAN_RECORD*, so the C
expression start + sizeBytes scales by sizeof(RTI_VLAN_RECORD): the stored
end pointer is start + sizeBytes*recSize bytes. -/
def RTIDFX_VlanTableForceSet (st : VlanState) (start : Option Nat) (sizeBytes : Nat) :
    RTI_ERR × VlanState :=
  match start with
  | none => (.RTI_ERR_INVALID_PARAM, st)
  | some a =>
    (.RTI_OK, { st with dynStart := a, dynEnd := (a + sizeBytes * recSize) % W64 })

/-- RTIDFX_VlanGetTableAddr. -/
def RTIDFX_VlanGetTableAddr (st : VlanState) : Nat := st.dynStart

/-- RTIDFX_VlanGetTableRecordMaxCount. -/
def RTIDFX_VlanGetTableRecordMaxCount (st : VlanState) : Nat :=
  RTI_VlanGetRecordCount st.dynStart st.dynEnd

/-- RTI_VlanDynamicGetFreeCount; the out parameter is modelled by an Option
flag for the NULL check and the written value is returned. -/
def RTI_VlanDynamicGetFreeCount (st : VlanState) (freeRecord : Option Unit) :
    RTI_ERR × Option Nat :=
  match freeRecord with
  | none => (.RTI_ERR_INVALID_PARAM, none)
  | some _ =>
    if RTI_VlanIsDynamicUninitialized st then (.RTI_ERR_VLANTABLE_NOT_SETUP, some 0)
    else
      (.RTI_OK, some
        ((RTI_VlanGetRecordCount st.dynStart st.dynEnd + (W64 - st.usedCnt % W64)) % W64))

/-- RTI_VlanDynamicGetAllCount. -/
def RTI_VlanDynamicGetAllCount (st : VlanState) (allRecordCount : Option Unit) :
    RTI_ERR × Option Nat :=
  match allRecordCount with
  | none => (.RTI_ERR_INVALID_PARAM, none)
  | some _ =>
    if RTI_VlanIsDynamicUninitialized st then (.RTI_ERR_VLANTABLE_NOT_SETUP, some 0)
    else (.RTI_OK, some (RTI_VlanGetRecordCount st.dynStart st.dynEnd))

/-- Capacity of the active window. -/
def tableCap (st : VlanState) : Nat :=
  RTI_VlanGetRecordCount st.dynStart st.dynEnd

/-- Well-formedness of the active dynamic window: a record-aligned window
below the address-space bound whose occupied records form exactly the
prefix of length usedCnt. -/
def InvTable (st : VlanState) : Prop :=
  st.dynStart ≤ st.dynEnd ∧ st.dynEnd < W64 ∧
  recSize ∣ (st.dynEnd - st.dynStart) ∧
  st.usedCnt ≤ tableCap st ∧
  (∀ k, k < st.usedCnt → (slot st k).isSome = true) ∧
  (∀ k, k < tableCap st → st.usedCnt ≤ k → slot st k = none)

instance (st : VlanState) : Decidable (InvTable st) := by
  unfold InvTable
  infer_instance

/-- One successful mutation of the dynamic table: a successful register or a
successful unregister. -/
def VlanStep (st st' : VlanState) : Prop :=
  (∃ d, RTI_VlanDynamicRegister st (some d) = (.RTI_OK, st')) ∨
  (∃ id, RTIDFX_VlanTableUnregister st id = some (.RTI_OK, st'))

/-- Static table memory with two descriptors, IDs 1 and 2, at addresses 0
and 8. -/
def memStatic2 : Nat → RTI_VLAN_RECORD := fun a =>
  if a = 0 then some ⟨100, 200, 1⟩
  else if a = 8 then some ⟨101, 201, 2⟩
  else none

/-- Boot state of a build whose static table holds descriptors 1 and 2: the
dynamic window still equals the static window. -/
def stStatic2 : VlanState :=
  { mem := memStatic2, statStart := 0, statEnd := 16,
    dynStart := 0, dynEnd := 16, usedCnt := 0 }

/-- The state after graduating stStatic2 to a 3-record buffer at 1000. -/
def stSetup2Post : VlanState :=
  (RTI_VlanDynamicSetup stStatic2 (some 1000) 24).2

/-- Boot state of a build with an empty static table. -/
def stEmptyStatic : VlanState :=
  { mem := fun _ => none, statStart := 0, statEnd := 0,
    dynStart := 0, dynEnd := 0, usedCnt := 0 }

/-- Memory of a running dynamic table at 2000 with descriptors 1 and 2 in
slots 0 and 1. -/
def memDyn : Nat → RTI_VLAN_RECORD := fun a =>
  if a = 2000 then some ⟨10, 20, 1⟩
  else if a = 2008 then some ⟨11, 21, 2⟩
  else none

/-- A set-up dynamic table: empty static table, active window [2000, 2024)
of capacity 3, used count 2, trailing slot NULL. -/
def stDyn : VlanState :=
  { mem := memDyn, statStart := 0, statEnd := 0,
    dynStart := 2000, dynEnd := 2024, usedCnt := 2 }

/-- The state after registering descriptor 3 into stDyn. -/
def stDynReg : VlanState :=
  (RTI_VlanDynamicRegister stDyn (some ⟨12, 22, 3⟩)).2

/-- The state after unregistering ID 1 from stDyn. -/
def stDynUnreg : VlanState :=
  match RTIDFX_VlanTableUnregister stDyn 1 with
  | some p => p.2
  | none => stDyn

/-- A second small table used as the C4 counterexample input: capacity 2,
one occupied slot, one NULL slot. -/
def stC4 : VlanState :=
  { mem := fun a => if a = 4000 then some ⟨31, 41, 7⟩ else none,
    statStart := 0, statEnd := 0, dynStart := 4000, dynEnd := 4016, usedCnt := 1 }

/-- A window that differs from the static window in its start boundary but
shares its end boundary. -/
def stC8 : VlanState :=
  { mem := fun _ => none, statStart := 0, statEnd := 16,
    dynStart := 800, dynEnd := 16, usedCnt := 0 }

/-! Arithmetic helpers. -/

theorem W64_eq : W64 = 18446744073709551616 := by norm_num [W64]

theorem ptrSub_small {s e : Nat} (h1 : s ≤ e) (h2 : e < W64) :
    ptrSub e s = e - s := by
  unfold ptrSub
  rw [W64_eq] at h2 ⊢
  rw [Nat.mod_eq_of_lt (show s < 18446744073709551616 by omega)]
  have hrw : e + (18446744073709551616 - s) = 18446744073709551616 + (e - s) := by omega
  rw [hrw, Nat.add_mod_left, Nat.mod_eq_of_lt (by omega)]

theorem recCount_aligned {s m : Nat} (h : s + recSize * m < W64) :
    RTI_VlanGetRecordCount s (s + recSize * m) = m := by
  unfold RTI_VlanGetRecordCount
  rw [ptrSub_small (by omega) h]
  simp [recSize]

theorem iterCnt_aligned (s m : Nat) : iterCnt s (s + recSize * m) = m := by
  unfold iterCnt
  simp [recSize]
  omega

theorem recCount_lt_W64 (s e : Nat) : RTI_VlanGetRecordCount s e < W64 := by
  unfold RTI_VlanGetRecordCount ptrSub
  rw [W64_eq]
  have h := Nat.mod_lt ((e + (18446744073709551616 - s % 18446744073709551616))) (by omega : 0 < 18446744073709551616)
  simp [recSize]
  omega

theorem freeCount_sub {u c : Nat} (hu : u ≤ c) (hc : c < W64) :
    (c + (W64 - u % W64)) % W64 = c - u := by
  rw [W64_eq] at hc ⊢
  rw [Nat.mod_eq_of_lt (show u < 18446744073709551616 by omega)]
  have hrw : c + (18446744073709551616 - u) = 18446744073709551616 + (c - u) := by omega
  rw [hrw, Nat.add_mod_left, Nat.mod_eq_of_lt (by omega)]

/-! Window and scan lemmas. -/

theorem recStep (s k : Nat) : s + recSize * (k + 1) = s + recSize + recSize * k := by
  ring

theorem lscanSel_nomatch {vlanId : Nat} :
    ∀ (n : Nat) (mem : Nat → RTI_VLAN_RECORD) (s : Nat),
      (∀ k, k < n → ∀ d, mem (s + recSize * k) = some d → d.id ≠ vlanId) →
      lscanSel vlanId (windowRecs mem s n) = (n, none) := by
  intro n
  induction n with
  | zero => intro mem s _; rfl
  | succ n ih =>
    intro mem s h
    have htail : ∀ k, k < n → ∀ d,
        mem (s + recSize + recSize * k) = some d → d.id ≠ vlanId := by
      intro k hk d hd
      exact h (k + 1) (by omega) d (by rw [recStep]; exact hd)
    have hrec := ih mem (s + recSize) htail
    cases hm : mem s with
    | none => simp [windowRecs, lscanSel, hm, hrec]
    | some d0 =>
      have hne : d0.id ≠ vlanId := h 0 (by omega) d0 (by simpa using hm)
      simp [windowRecs, lscanSel, hm, hne, hrec]

theorem lscanSel_match {vlanId : Nat} :
    ∀ (n : Nat) (mem : Nat → RTI_VLAN_RECORD) (s k : Nat) (d : RTI_VLAN_DESC),
      k < n → mem (s + recSize * k) = some d → d.id = vlanId →
      (∀ j, j < k → mem (s + recSize * j) = none ∨
        ∃ d2, mem (s + recSize * j) = some d2 ∧ d2.id ≠ vlanId) →
      lscanSel vlanId (windowRecs mem s n) = (k, some d) := by
  intro n
  induction n with
  | zero => intro mem s k d hk; omega
  | succ n ih =>
    intro mem s k d hk hmem hid hfirst
    cases k with
    | zero =>
      have hm : mem s = some d := by simpa using hmem
      simp [windowRecs, lscanSel, hm, hid]
    | succ k =>
      have hmem2 : mem (s + recSize + recSize * k) = some d := by
        rw [← recStep]; exact hmem
      have hfirst2 : ∀ j, j < k → mem (s + recSize + recSize * j) = none ∨
          ∃ d2, mem (s + recSize + recSize * j) = some d2 ∧ d2.id ≠ vlanId := by
        intro j hj
        have := hfirst (j + 1) (by omega)
        rwa [recStep] at this
      have hrec := ih mem (s + recSize) k d (by omega) hmem2 hid hfirst2
      have h0 := hfirst 0 (by omega)
      simp only [Nat.mul_zero, Nat.add_zero] at h0
      rcases h0 with h0 | ⟨d2, h0, hne⟩
      · simp [windowRecs, lscanSel, h0, hrec]
      · simp [windowRecs, lscanSel, h0, hne, hrec]

theorem lscanSel_inversion {vlanId : Nat} :
    ∀ (n : Nat) (mem : Nat → RTI_VLAN_RECORD) (s c : Nat) (d : RTI_VLAN_DESC),
      lscanSel vlanId (windowRecs mem s n) = (c, some d) →
      c < n ∧ mem (s + recSize * c) = some d ∧ d.id = vlanId ∧
        ∀ j, j < c → mem (s + recSize * j) = none ∨
          ∃ d2, mem (s + recSize * j) = some d2 ∧ d2.id ≠ vlanId := by
  intro n
  induction n with
  | zero =>
    intro mem s c d h
    simp [windowRecs, lscanSel] at h
  | succ n ih =>
    intro mem s c d h
    cases hm : mem s with
    | none =>
      simp only [windowRecs, lscanSel, hm] at h
      rw [Prod.ext_iff] at h
      obtain ⟨h1, h2⟩ := h
      simp at h1 h2
      have hc : c = (lscanSel vlanId (windowRecs mem (s + recSize) n)).1 + 1 := h1.symm
      have hp : lscanSel vlanId (windowRecs mem (s + recSize) n) =
          ((lscanSel vlanId (windowRecs mem (s + recSize) n)).1, some d) := by
        exact Prod.ext rfl h2
      obtain ⟨ha, hb, hcid, hd⟩ := ih mem (s + recSize) _ d hp
      refine ⟨by omega, ?_, hcid, ?_⟩
      · rw [hc, recStep]; exact hb
      · intro j hj
        cases j with
        | zero => left; simpa using hm
        | succ j =>
          rw [recStep]
          exact hd j (by omega)
    | some d0 =>
      by_cases hid : d0.id = vlanId
      · simp only [windowRecs, lscanSel, hm, if_pos hid] at h
        rw [Prod.ext_iff] at h
        obtain ⟨h1, h2⟩ := h
        simp at h1 h2
        subst h1
        refine ⟨by omega, by simpa [h2] using hm, by rw [← h2]; exact hid, by omega⟩
      · simp only [windowRecs, lscanSel, hm, if_neg hid] at h
        rw [Prod.ext_iff] at h
        obtain ⟨h1, h2⟩ := h
        simp at h1 h2
        have hp : lscanSel vlanId (windowRecs mem (s + recSize) n) =
            ((lscanSel vlanId (windowRecs mem (s + recSize) n)).1, some d) := by
          exact Prod.ext rfl h2
        obtain ⟨ha, hb, hcid, hd⟩ := ih mem (s + recSize) _ d hp
        refine ⟨by omega, ?_, hcid, ?_⟩
        · rw [← h1, recStep]; exact hb
        · intro j hj
          cases j with
          | zero => right; exact ⟨d0, by simpa using hm, hid⟩
          | succ j =>
            rw [recStep]
            exact hd j (by omega)

theorem lscanUnreg_notfound {vlanId : Nat} :
    ∀ (n : Nat) (mem : Nat → RTI_VLAN_RECORD) (s : Nat),
      (∀ j, j < n → ∃ d2, mem (s + recSize * j) = some d2 ∧ d2.id ≠ vlanId) →
      lscanUnreg vlanId (windowRecs mem s n) = some none := by
  intro n
  induction n with
  | zero => intro mem s _; rfl
  | succ n ih =>
    intro mem s h
    obtain ⟨d0, hm, hne⟩ := h 0 (by omega)
    simp only [Nat.mul_zero, Nat.add_zero] at hm
    have htail : ∀ j, j < n →
        ∃ d2, mem (s + recSize + recSize * j) = some d2 ∧ d2.id ≠ vlanId := by
      intro j hj
      have := h (j + 1) (by omega)
      rwa [recStep] at this
    have hrec := ih mem (s + recSize) htail
    simp [windowRecs, lscanUnreg, hm, hne, hrec]

theorem lscanUnreg_found {vlanId : Nat} :
    ∀ (n : Nat) (mem : Nat → RTI_VLAN_RECORD) (s k : Nat) (d : RTI_VLAN_DESC),
      k < n → mem (s + recSize * k) = some d → d.id = vlanId →
      (∀ j, j < k → ∃ d2, mem (s + recSize * j) = some d2 ∧ d2.id ≠ vlanId) →
      lscanUnreg vlanId (windowRecs mem s n) = some (some k) := by
  intro n
  induction n with
  | zero => intro mem s k d hk; omega
  | succ n ih =>
    intro mem s k d hk hmem hid hfirst
    cases k with
    | zero =>
      have hm : mem s = some d := by simpa using hmem
      simp [windowRecs, lscanUnreg, hm, hid]
    | succ k =>
      obtain ⟨d0, hm, hne⟩ := hfirst 0 (by omega)
      simp only [Nat.mul_zero, Nat.add_zero] at hm
      have hmem2 : mem (s + recSize + recSize * k) = some d := by
        rw [← recStep]; exact hmem
      have hfirst2 : ∀ j, j < k →
          ∃ d2, mem (s + recSize + recSize * j) = some d2 ∧ d2.id ≠ vlanId := by
        intro j hj
        have := hfirst (j + 1) (by omega)
        rwa [recStep] at this
      have hrec := ih mem (s + recSize) k d (by omega) hmem2 hid hfirst2
      simp [windowRecs, lscanUnreg, hm, hne, hrec]

theorem lscanUnreg_inversion {vlanId : Nat} :
    ∀ (n : Nat) (mem : Nat → RTI_VLAN_RECORD) (s k : Nat),
      lscanUnreg vlanId (windowRecs mem s n) = some (some k) →
      k < n ∧ (∃ d, mem (s + recSize * k) = some d ∧ d.id = vlanId) ∧
        ∀ j, j < k → ∃ d2, mem (s + recSize * j) = some d2 ∧ d2.id ≠ vlanId := by
  intro n
  induction n with
  | zero =>
    intro mem s k h
    simp [windowRecs, lscanUnreg] at h
  | succ n ih =>
    intro mem s k h
    cases hm : mem s with
    | none => simp [windowRecs, lscanUnreg, hm] at h
    | some d0 =>
      by_cases hid : d0.id = vlanId
      · simp only [windowRecs, lscanUnreg, hm, if_pos hid] at h
        simp at h
        subst h
        exact ⟨by omega, ⟨d0, by simpa using hm, hid⟩, by omega⟩
      · simp only [windowRecs, lscanUnreg, hm, if_neg hid] at h
        cases hrec : lscanUnreg vlanId (windowRecs mem (s + recSize) n) with
        | none => rw [hrec] at h; simp at h
        | some o =>
          cases o with
          | none => rw [hrec] at h; simp at h
          | some k0 =>
            rw [hrec] at h
            simp at h
            subst h
            obtain ⟨ha, ⟨d1, hb, hbid⟩, hc⟩ := ih mem (s + recSize) k0 hrec
            refine ⟨by omega, ⟨d1, by rw [recStep]; exact hb, hbid⟩, ?_⟩
            intro j hj
            cases j with
            | zero => exact ⟨d0, by simpa using hm, hid⟩
            | succ j =>
              rw [recStep]
              exact hc j (by omega)

/-! Invariant and operation-level lemmas. -/

theorem slot_addr_ne {s k u : Nat} (h : k ≠ u) :
    s + recSize * k ≠ s + recSize * u := by
  simp [recSize]
  omega

theorem tableCap_lt_W64 (st : VlanState) : tableCap st < W64 :=
  recCount_lt_W64 st.dynStart st.dynEnd

theorem invTable_align {st : VlanState} (h : InvTable st) :
    st.dynEnd = st.dynStart + recSize * tableCap st := by
  obtain ⟨h1, h2, ⟨c, hc⟩, -, -, -⟩ := h
  have hcap : tableCap st = c := by
    unfold tableCap RTI_VlanGetRecordCount
    rw [ptrSub_small h1 h2, hc]
    simp [recSize]
  rw [hcap]
  omega

theorem iterCnt_of_align {st : VlanState} {n : Nat}
    (halign : st.dynEnd = st.dynStart + recSize * n) :
    iterCnt st.dynStart st.dynEnd = n := by
  rw [halign, iterCnt_aligned]

theorem select_found {st : VlanState} {vlanId : Nat} {n k : Nat} {d : RTI_VLAN_DESC}
    (halign : st.dynEnd = st.dynStart + recSize * n)
    (hk : k < n) (hmem : slot st k = some d) (hid : d.id = vlanId)
    (hfirst : ∀ j, j < k → slot st j = none ∨
      ∃ d2, slot st j = some d2 ∧ d2.id ≠ vlanId) :
    RTIPriv_VlanSelect st vlanId = (.RTI_OK, some d) := by
  have hne : st.dynStart ≠ st.dynEnd := by
    rw [halign]; simp [recSize]; omega
  have hscan := @lscanSel_match vlanId n st.mem st.dynStart k d hk hmem hid hfirst
  unfold RTIPriv_VlanSelect
  rw [if_neg hne, iterCnt_of_align halign, hscan]
  have hstop : st.dynStart + recSize * k ≠ st.dynEnd := by
    rw [halign]; simp [recSize]; omega
  rw [if_neg hstop]

theorem select_notfound {st : VlanState} {vlanId : Nat} {n : Nat}
    (halign : st.dynEnd = st.dynStart + recSize * n) (hn : 0 < n)
    (hall : ∀ k, k < n → ∀ d, slot st k = some d → d.id ≠ vlanId) :
    RTIPriv_VlanSelect st vlanId = (.RTI_ERR_INVALID_PARAM, none) := by
  have hne : st.dynStart ≠ st.dynEnd := by
    rw [halign]; simp [recSize]; omega
  have hscan := @lscanSel_nomatch vlanId n st.mem st.dynStart hall
  unfold RTIPriv_VlanSelect
  rw [if_neg hne, iterCnt_of_align halign, hscan]
  rw [if_pos (by rw [halign])]

theorem select_empty {st : VlanState} {vlanId : Nat} (h : st.dynStart = st.dynEnd) :
    RTIPriv_VlanSelect st vlanId = (.RTI_ERR_OBJECT_EMPTY, none) := by
  unfold RTIPriv_VlanSelect
  rw [if_pos h]

theorem select_inversion {st : VlanState} {vlanId : Nat} {n : Nat} {d : RTI_VLAN_DESC}
    (halign : st.dynEnd = st.dynStart + recSize * n)
    (h : RTIPriv_VlanSelect st vlanId = (.RTI_OK, some d)) :
    ∃ k, k < n ∧ slot st k = some d ∧ d.id = vlanId ∧
      ∀ j, j < k → slot st j = none ∨
        ∃ d2, slot st j = some d2 ∧ d2.id ≠ vlanId := by
  unfold RTIPriv_VlanSelect at h
  by_cases hse : st.dynStart = st.dynEnd
  · rw [if_pos hse] at h
    exact absurd (congrArg Prod.fst h) (by simp)
  · rw [if_neg hse, iterCnt_of_align halign] at h
    by_cases hstop : st.dynStart + recSize *
        (lscanSel vlanId (windowRecs st.mem st.dynStart n)).1 = st.dynEnd
    · rw [if_pos hstop] at h
      exact absurd (congrArg Prod.fst h) (by simp)
    · rw [if_neg hstop] at h
      have h2 : (lscanSel vlanId (windowRecs st.mem st.dynStart n)).2 = some d := by
        have := congrArg Prod.snd h
        simpa using this
      have hp : lscanSel vlanId (windowRecs st.mem st.dynStart n) =
          ((lscanSel vlanId (windowRecs st.mem st.dynStart n)).1, some d) :=
        Prod.ext rfl h2
      obtain ⟨ha, hb, hc, hd⟩ := lscanSel_inversion n st.mem st.dynStart _ d hp
      exact ⟨_, ha, hb, hc, hd⟩

theorem register_ok_spec {st st' : VlanState} {d : RTI_VLAN_DESC}
    (h : RTI_VlanDynamicRegister st (some d) = (.RTI_OK, st')) :
    st.usedCnt < tableCap st ∧ RTI_VlanIsDynamicUninitialized st = false ∧
    st'.statStart = st.statStart ∧ st'.statEnd = st.statEnd ∧
    st'.dynStart = st.dynStart ∧ st'.dynEnd = st.dynEnd ∧
    st'.usedCnt = st.usedCnt + 1 ∧
    slot st' st.usedCnt = some d ∧
    ∀ k, k ≠ st.usedCnt → slot st' k = slot st k := by
  simp only [RTI_VlanDynamicRegister] at h
  by_cases hov : RTI_VlanGetRecordCount st.dynStart st.dynEnd ≤ st.usedCnt
  · rw [if_pos hov] at h
    exact absurd (congrArg Prod.fst h) (by simp)
  · rw [if_neg hov] at h
    by_cases hun : RTI_VlanIsDynamicUninitialized st = true
    · simp only [hun, if_true] at h
      exact absurd (congrArg Prod.fst h) (by simp)
    · have hun2 : RTI_VlanIsDynamicUninitialized st = false := by
        simpa using hun
      rw [hun2] at h
      simp only [Bool.false_eq_true, if_false] at h
      have hlt : st.usedCnt < tableCap st := by
        unfold tableCap; omega
      have hst : ({ st with
          mem := fun addr =>
            if addr = st.dynStart + recSize * st.usedCnt then some d
            else st.mem addr,
          usedCnt := (st.usedCnt + 1) % W64 } : VlanState) = st' := by
        have := congrArg Prod.snd h
        simpa using this
      subst hst
      have hmod : (st.usedCnt + 1) % W64 = st.usedCnt + 1 := by
        have := tableCap_lt_W64 st
        exact Nat.mod_eq_of_lt (by omega)
      refine ⟨hlt, hun2, rfl, rfl, rfl, rfl, hmod, ?_, ?_⟩
      · simp [slot]
      · intro k hkne
        simp only [slot]
        rw [if_neg (slot_addr_ne hkne)]

theorem register_preserves_inv {st st' : VlanState} {d : RTI_VLAN_DESC}
    (hinv : InvTable st)
    (h : RTI_VlanDynamicRegister st (some d) = (.RTI_OK, st')) : InvTable st' := by
  obtain ⟨hlt, -, -, -, hds, hde, hu, hslot, hother⟩ := register_ok_spec h
  obtain ⟨h1, h2, h3, h4, h5, h6⟩ := hinv
  have hcap : tableCap st' = tableCap st := by
    unfold tableCap RTI_VlanGetRecordCount
    rw [hds, hde]
  refine ⟨by rw [hds, hde]; exact h1, by rw [hde]; exact h2,
    by rw [hds, hde]; exact h3, by rw [hcap, hu]; omega, ?_, ?_⟩
  · intro k hk
    rw [hu] at hk
    by_cases hke : k = st.usedCnt
    · subst hke; rw [hslot]; rfl
    · rw [hother k hke]
      exact h5 k (by omega)
  · intro k hk1 hk2
    rw [hcap] at hk1
    rw [hu] at hk2
    rw [hother k (by omega)]
    exact h6 k hk1 (by omega)

theorem unregister_ok_spec {st st' : VlanState} {id : Nat}
    (hinv : InvTable st)
    (h : RTIDFX_VlanTableUnregister st id = some (.RTI_OK, st')) :
    ∃ k, k < st.usedCnt ∧ (∃ d, slot st k = some d ∧ d.id = id) ∧
      (∀ j, j < k → ∃ d2, slot st j = some d2 ∧ d2.id ≠ id) ∧
      st'.statStart = st.statStart ∧ st'.statEnd = st.statEnd ∧
      st'.dynStart = st.dynStart ∧ st'.dynEnd = st.dynEnd ∧
      st'.usedCnt + 1 = st.usedCnt ∧
      (∀ j, j < k → slot st' j = slot st j) ∧
      (∀ j, k ≤ j → j + 1 < st.usedCnt → slot st' j = slot st (j + 1)) ∧
      (∀ j, st'.usedCnt ≤ j → j < tableCap st → slot st' j = none) := by
  have halign := invTable_align hinv
  obtain ⟨hle, hwlt, hdvd, huse, hocc, htail⟩ := hinv
  unfold RTIDFX_VlanTableUnregister at h
  rw [iterCnt_of_align halign] at h
  cases hscan : lscanUnreg id (windowRecs st.mem st.dynStart (tableCap st)) with
  | none => rw [hscan] at h; simp at h
  | some o =>
    cases o with
    | none => rw [hscan] at h; simp at h
    | some k =>
      rw [hscan] at h
      dsimp only at h
      simp only [Option.some.injEq, Prod.mk.injEq, true_and] at h
      obtain ⟨hkcap, ⟨d, hd, hdid⟩, hbefore⟩ :=
        lscanUnreg_inversion (tableCap st) st.mem st.dynStart k hscan
      have hd2 : slot st k = some d := hd
      have hkused : k < st.usedCnt := by
        rcases Nat.lt_or_ge k st.usedCnt with hk | hk
        · exact hk
        · exfalso
          have hnone := htail k hkcap hk
          rw [hnone] at hd2
          exact Option.noConfusion hd2
      have husedlt : st.usedCnt < W64 := lt_of_le_of_lt huse (tableCap_lt_W64 st)
      have hused1 : (st.usedCnt + (W64 - 1)) % W64 = st.usedCnt - 1 := by
        have hW : (0:Nat) < W64 := by rw [W64_eq]; omega
        have h1 : st.usedCnt + (W64 - 1) = W64 + (st.usedCnt - 1) := by omega
        rw [h1, Nat.add_mod_left, Nat.mod_eq_of_lt (by omega)]
      rw [hused1] at h
      have hnB : (st.dynEnd - (st.dynStart + recSize * k)) / recSize - 1 =
          tableCap st - k - 1 := by
        rw [halign]
        simp [recSize]
        omega
      rw [hnB] at h
      subst h
      refine ⟨k, hkused, ⟨d, hd2, hdid⟩, hbefore, rfl, rfl, rfl, rfl,
        by simp; omega, ?_, ?_, ?_⟩
      · intro j hj
        show (if st.dynStart + recSize * j = st.dynStart + recSize * (st.usedCnt - 1)
            then none
            else if st.dynStart + recSize * k ≤ st.dynStart + recSize * j ∧
                st.dynStart + recSize * j + recSize ≤
                  st.dynStart + recSize * k + (tableCap st - k - 1) * recSize
              then st.mem (st.dynStart + recSize * j + recSize)
              else st.mem (st.dynStart + recSize * j)) = slot st j
        rw [if_neg (by simp [recSize]; omega)]
        rw [if_neg (by simp [recSize]; omega)]
        rfl
      · intro j hjk hjused
        show (if st.dynStart + recSize * j = st.dynStart + recSize * (st.usedCnt - 1)
            then none
            else if st.dynStart + recSize * k ≤ st.dynStart + recSize * j ∧
                st.dynStart + recSize * j + recSize ≤
                  st.dynStart + recSize * k + (tableCap st - k - 1) * recSize
              then st.mem (st.dynStart + recSize * j + recSize)
              else st.mem (st.dynStart + recSize * j)) = slot st (j + 1)
        have hjcap : j + 1 < tableCap st := by omega
        rw [if_neg (by simp [recSize]; omega)]
        rw [if_pos (by constructor <;> (simp [recSize]; omega))]
        rw [show st.dynStart + recSize * j + recSize =
          st.dynStart + recSize * (j + 1) from by ring]
        rfl
      · intro j hj1 hj2
        show (if st.dynStart + recSize * j = st.dynStart + recSize * (st.usedCnt - 1)
            then none
            else if st.dynStart + recSize * k ≤ st.dynStart + recSize * j ∧
                st.dynStart + recSize * j + recSize ≤
                  st.dynStart + recSize * k + (tableCap st - k - 1) * recSize
              then st.mem (st.dynStart + recSize * j + recSize)
              else st.mem (st.dynStart + recSize * j)) = none
        simp only at hj1
        by_cases hje : j = st.usedCnt - 1
        · rw [if_pos (by rw [hje])]
        · rw [if_neg (by simp [recSize]; omega)]
          have hjge : st.usedCnt ≤ j := by omega
          by_cases hjlast : j + 1 < tableCap st
          · rw [if_pos (by constructor <;> (simp [recSize]; omega))]
            have := htail (j + 1) hjlast (by omega)
            rw [show st.dynStart + recSize * j + recSize =
              st.dynStart + recSize * (j + 1) by ring]
            exact this
          · rw [if_neg (by simp [recSize]; omega)]
            exact htail j hj2 hjge

theorem unregister_preserves_inv {st st' : VlanState} {id : Nat}
    (hinv : InvTable st)
    (h : RTIDFX_VlanTableUnregister st id = some (.RTI_OK, st')) : InvTable st' := by
  obtain ⟨k, hkused, -, -, hss, hse, hds, hde, hu, hlow, hshift, hhigh⟩ :=
    unregister_ok_spec hinv h
  obtain ⟨h1, h2, h3, h4, h5, h6⟩ := hinv
  have hcap : tableCap st' = tableCap st := by
    unfold tableCap RTI_VlanGetRecordCount
    rw [hds, hde]
  refine ⟨by rw [hds, hde]; exact h1, by rw [hde]; exact h2,
    by rw [hds, hde]; exact h3, by rw [hcap]; omega, ?_, ?_⟩
  · intro j hj
    by_cases hjk : j < k
    · rw [hlow j hjk]
      exact h5 j (by omega)
    · rw [hshift j (by omega) (by omega)]
      exact h5 (j + 1) (by omega)
  · intro j hj1 hj2
    rw [hcap] at hj1
    exact hhigh j hj2 hj1

theorem unregister_full_absent {st : VlanState} {id : Nat}
    (hinv : InvTable st) (hfull : st.usedCnt = tableCap st)
    (habs : ∀ k, k < tableCap st → ∀ d, slot st k = some d → d.id ≠ id) :
    RTIDFX_VlanTableUnregister st id = some (.RTI_ERR_INVALID_PARAM, st) := by
  have halign := invTable_align hinv
  obtain ⟨hle, hwlt, hdvd, huse, hocc, htail⟩ := hinv
  have hall : ∀ j, j < tableCap st →
      ∃ d2, st.mem (st.dynStart + recSize * j) = some d2 ∧ d2.id ≠ id := by
    intro j hj
    have hs := hocc j (by omega)
    cases hm : slot st j with
    | none => rw [hm] at hs; simp at hs
    | some d2 => exact ⟨d2, hm, habs j hj d2 hm⟩
  have hscan := @lscanUnreg_notfound id (tableCap st) st.mem st.dynStart hall
  unfold RTIDFX_VlanTableUnregister
  rw [iterCnt_of_align halign, hscan]

theorem getFreeCount_spec {st : VlanState}
    (huse : st.usedCnt ≤ tableCap st)
    (hsetup : RTI_VlanIsDynamicUninitialized st = false) :
    RTI_VlanDynamicGetFreeCount st (some ()) =
      (.RTI_OK, some (tableCap st - st.usedCnt)) := by
  unfold RTI_VlanDynamicGetFreeCount
  rw [hsetup]
  simp only [Bool.false_eq_true, if_false]
  show (RTI_ERR.RTI_OK, some ((tableCap st + (W64 - st.usedCnt % W64)) % W64)) =
    (RTI_ERR.RTI_OK, some (tableCap st - st.usedCnt))
  rw [freeCount_sub huse (tableCap_lt_W64 st)]

theorem getAllCount_spec {st : VlanState}
    (hsetup : RTI_VlanIsDynamicUninitialized st = false) :
    RTI_VlanDynamicGetAllCount st (some ()) = (.RTI_OK, some (tableCap st)) := by
  unfold RTI_VlanDynamicGetAllCount
  rw [hsetup]
  simp only [Bool.false_eq_true, if_false]
  rfl

/-! Claim theorems. -/

/-- C1: On the active window, Select with an empty window (start = end)
returns ObjectEmpty without touching the output; otherwise the first slot in
ascending index order holding a non-NULL descriptor whose ID equals the
requested id is copied out in full with RTI_OK, and the copy carries that id;
when no occupied slot matches, Select returns InvalidParam. -/
theorem vlanSelect_spec (st : VlanState) (vlanId n : Nat)
    (halign : st.dynEnd = st.dynStart + recSize * n) :
    (n = 0 → RTIPriv_VlanSelect st vlanId = (.RTI_ERR_OBJECT_EMPTY, none)) ∧
    (∀ k d, k < n → slot st k = some d → d.id = vlanId →
      (∀ j, j < k → slot st j = none ∨
        ∃ d2, slot st j = some d2 ∧ d2.id ≠ vlanId) →
      RTIPriv_VlanSelect st vlanId = (.RTI_OK, some d) ∧ d.id = vlanId) ∧
    ((∀ k, k < n → ∀ d, slot st k = some d → d.id ≠ vlanId) → 0 < n →
      RTIPriv_VlanSelect st vlanId = (.RTI_ERR_INVALID_PARAM, none)) := by
  refine ⟨?_, ?_, ?_⟩
  · intro hn
    apply select_empty
    rw [halign, hn]
    simp
  · intro k d hk hm hid hf
    exact ⟨select_found halign hk hm hid hf, hid⟩
  · intro hall hn
    exact select_notfound halign hn hall

/-- Witness for C1 on the concrete two-descriptor static table. -/
theorem vlanSelect_spec_witness :
    (stStatic2.dynEnd = stStatic2.dynStart + recSize * 2) ∧
    RTIPriv_VlanSelect stStatic2 2 = (.RTI_OK, some ⟨101, 201, 2⟩) ∧
    RTIPriv_VlanSelect stStatic2 9 = (.RTI_ERR_INVALID_PARAM, none) := by
  refine ⟨by decide, ?_, ?_⟩
  · refine ((vlanSelect_spec stStatic2 2 2 (by decide)).2.1 1 ⟨101, 201, 2⟩
      (by decide) (by decide) (by decide) ?_).1
    intro j hj
    interval_cases j
    exact Or.inr ⟨⟨100, 200, 1⟩, by decide, by decide⟩
  · exact (vlanSelect_spec stStatic2 9 2 (by decide)).2.2 (by decide) (by decide)

/-- C3 (amended): Register rejects a NULL descriptor with InvalidParam;
it checks for a full window before the uninitialized check, so a state with
usedCnt at capacity yields TableOverflow even when the window is
uninitialized; an uninitialized window with spare capacity yields
TableNotSetup; otherwise the descriptor reference is stored at slot
usedCnt, the used count increments and the call returns OK. -/
theorem vlanRegister_guards (st : VlanState) :
    (RTI_VlanDynamicRegister st none = (.RTI_ERR_INVALID_PARAM, st)) ∧
    (∀ d, tableCap st ≤ st.usedCnt →
      RTI_VlanDynamicRegister st (some d) = (.RTI_ERR_VLANTABLE_OVERFLOW, st)) ∧
    (∀ d, st.usedCnt < tableCap st → RTI_VlanIsDynamicUninitialized st = true →
      RTI_VlanDynamicRegister st (some d) = (.RTI_ERR_VLANTABLE_NOT_SETUP, st)) ∧
    (∀ d, st.usedCnt < tableCap st → RTI_VlanIsDynamicUninitialized st = false →
      ∃ st', RTI_VlanDynamicRegister st (some d) = (.RTI_OK, st') ∧
        st'.dynStart = st.dynStart ∧ st'.dynEnd = st.dynEnd ∧
        st'.usedCnt = st.usedCnt + 1 ∧ slot st' st.usedCnt = some d ∧
        ∀ k, k ≠ st.usedCnt → slot st' k = slot st k) := by
  refine ⟨rfl, ?_, ?_, ?_⟩
  · intro d hfull
    simp only [RTI_VlanDynamicRegister]
    rw [if_pos (show RTI_VlanGetRecordCount st.dynStart st.dynEnd ≤ st.usedCnt from hfull)]
  · intro d hlt hun
    simp only [RTI_VlanDynamicRegister]
    rw [if_neg (show ¬ RTI_VlanGetRecordCount st.dynStart st.dynEnd ≤ st.usedCnt from
      by unfold tableCap at hlt; omega)]
    rw [hun]
    simp
  · intro d hlt hun
    have hreg : RTI_VlanDynamicRegister st (some d) = (.RTI_OK,
        { st with
          mem := fun addr =>
            if addr = st.dynStart + recSize * st.usedCnt then some d
            else st.mem addr,
          usedCnt := (st.usedCnt + 1) % W64 }) := by
      simp only [RTI_VlanDynamicRegister]
      rw [if_neg (show ¬ RTI_VlanGetRecordCount st.dynStart st.dynEnd ≤ st.usedCnt from
        by unfold tableCap at hlt; omega)]
      rw [hun]
      simp
    obtain ⟨-, -, -, -, hds, hde, hu, hslot, hother⟩ := register_ok_spec hreg
    exact ⟨_, hreg, hds, hde, hu, hslot, hother⟩

/-- Counterexample for C3 as stated: on the boot state of a build with an
empty static table the window is uninitialized, yet Register reports
TableOverflow, not TableNotSetup, because the overflow guard runs first. -/
theorem vlanRegister_guards_cex :
    RTI_VlanIsDynamicUninitialized stEmptyStatic = true ∧
    (RTI_VlanDynamicRegister stEmptyStatic (some ⟨1, 1, 1⟩)).1 =
      .RTI_ERR_VLANTABLE_OVERFLOW ∧
    (RTI_VlanDynamicRegister stEmptyStatic (some ⟨1, 1, 1⟩)).1 ≠
      .RTI_ERR_VLANTABLE_NOT_SETUP := by decide

/-- Witness for C3 on the concrete running table stDyn. -/
theorem vlanRegister_guards_witness :
    stDyn.usedCnt < tableCap stDyn ∧
    RTI_VlanIsDynamicUninitialized stDyn = false ∧
    ∃ st', RTI_VlanDynamicRegister stDyn (some ⟨12, 22, 3⟩) = (.RTI_OK, st') ∧
      st'.dynStart = stDyn.dynStart ∧ st'.dynEnd = stDyn.dynEnd ∧
      st'.usedCnt = stDyn.usedCnt + 1 ∧ slot st' stDyn.usedCnt = some ⟨12, 22, 3⟩ ∧
      ∀ k, k ≠ stDyn.usedCnt → slot st' k = slot stDyn k :=
  ⟨by decide, by decide,
    (vlanRegister_guards stDyn).2.2.2 ⟨12, 22, 3⟩ (by decide) (by decide)⟩

/-- C5: a Setup whose byte size cannot hold the migrated record count fails
with TableTooShort and leaves the whole registry state unchanged, so every
Select result is unchanged. -/
theorem vlanSetup_tooShort (st : VlanState) (a sizeBytes : Nat)
    (h : sizeBytes < recSize * recordCntOld st) :
    RTI_VlanDynamicSetup st (some a) sizeBytes =
      (.RTI_ERR_VLANTABLE_TOO_SHORT, st) ∧
    ∀ vlanId, RTIPriv_VlanSelect (RTI_VlanDynamicSetup st (some a) sizeBytes).2 vlanId =
      RTIPriv_VlanSelect st vlanId := by
  have hres : RTI_VlanDynamicSetup st (some a) sizeBytes =
      (.RTI_ERR_VLANTABLE_TOO_SHORT, st) := by
    simp only [RTI_VlanDynamicSetup]
    rw [if_pos h]
  exact ⟨hres, fun vlanId => by rw [hres]⟩

/-- Witness for C5: stStatic2 has two records in use, a one-record buffer is
too short and the original table still answers Select. -/
theorem vlanSetup_tooShort_witness :
    (8 < recSize * recordCntOld stStatic2) ∧
    RTI_VlanDynamicSetup stStatic2 (some 3000) 8 =
      (.RTI_ERR_VLANTABLE_TOO_SHORT, stStatic2) ∧
    RTIPriv_VlanSelect (RTI_VlanDynamicSetup stStatic2 (some 3000) 8).2 1 =
      RTIPriv_VlanSelect stStatic2 1 :=
  ⟨by decide, (vlanSetup_tooShort stStatic2 3000 8 (by decide)).1,
    (vlanSetup_tooShort stStatic2 3000 8 (by decide)).2 1⟩

/-- C6: the claim is right and the code is wrong.  IsRegistered and
Unregister do not skip NULL records the way Select does: on the reachable
set-up table stDyn (capacity 3, used 2, trailing slot NULL) a scan for an
absent id reads the descriptor ID through the NULL record in slot 2, a null
pointer dereference, while the same lookup through Select skips the slot and
returns InvalidParam. -/
theorem vlanScan_nullDeref_bug :
    RTI_VlanDynamicIsRegister stDyn (some ⟨9, 9, 9⟩) = none ∧
    RTIDFX_VlanTableUnregister stDyn 9 = none ∧
    RTIPriv_VlanSelect stDyn 9 = (.RTI_ERR_INVALID_PARAM, none) :=
  ⟨rfl, rfl, by decide⟩

/-- C7: the claim is right and the code is wrong.  ForceSet(start, 16) is
documented to install a 16-byte window (capacity 16/recSize = 2 records),
but start is an RTI_VLAN_RECORD pointer, so start + sizeBytes scales by the
record size: the stored end pointer is 1000 + 16*recSize = 1128 and the
capacity query reports 16 records. -/
theorem vlanForceSet_scaled_bug :
    (RTIDFX_VlanTableForceSet stEmptyStatic (some 1000) 16).1 = .RTI_OK ∧
    (RTIDFX_VlanTableForceSet stEmptyStatic (some 1000) 16).2.dynStart = 1000 ∧
    (RTIDFX_VlanTableForceSet stEmptyStatic (some 1000) 16).2.dynEnd =
      1000 + 16 * recSize ∧
    RTIDFX_VlanGetTableRecordMaxCount
      (RTIDFX_VlanTableForceSet stEmptyStatic (some 1000) 16).2 = 16 ∧
    (16 : Nat) / recSize = 2 := by decide

/-- C8 (amended): the uninitialized test is true exactly when the dynamic
window agrees with the static window in at least one boundary: the C code
joins the two boundary comparisons with OR, not AND. -/
theorem vlanIsUninit_spec (st : VlanState) :
    RTI_VlanIsDynamicUninitialized st = true ↔
      st.dynStart = st.statStart ∨ st.dynEnd = st.statEnd := by
  simp [RTI_VlanIsDynamicUninitialized]

/-- Counterexample for C8 as stated: a window that differs from the static
window in its start boundary still tests as uninitialized because its end
boundary coincides. -/
theorem vlanIsUninit_cex :
    stC8.dynStart ≠ stC8.statStart ∧ stC8.dynEnd = stC8.statEnd ∧
    RTI_VlanIsDynamicUninitialized stC8 = true := by decide

/-- C9: frame effect of the two mutations on the capacity queries: a
successful Register decreases GetFreeCount by exactly one and leaves
GetAllCount unchanged; a successful Unregister increases GetFreeCount by
exactly one and leaves GetAllCount unchanged. -/
theorem vlanCounts_frame (st : VlanState)
    (hinv : InvTable st) (hsetup : RTI_VlanIsDynamicUninitialized st = false) :
    (∀ d st', RTI_VlanDynamicRegister st (some d) = (.RTI_OK, st') →
      (∃ f, RTI_VlanDynamicGetFreeCount st (some ()) = (.RTI_OK, some (f + 1)) ∧
        RTI_VlanDynamicGetFreeCount st' (some ()) = (.RTI_OK, some f)) ∧
      RTI_VlanDynamicGetAllCount st' (some ()) =
        RTI_VlanDynamicGetAllCount st (some ())) ∧
    (∀ id st', RTIDFX_VlanTableUnregister st id = some (.RTI_OK, st') →
      (∃ f, RTI_VlanDynamicGetFreeCount st (some ()) = (.RTI_OK, some f) ∧
        RTI_VlanDynamicGetFreeCount st' (some ()) = (.RTI_OK, some (f + 1))) ∧
      RTI_VlanDynamicGetAllCount st' (some ()) =
        RTI_VlanDynamicGetAllCount st (some ())) := by
  have huse : st.usedCnt ≤ tableCap st := hinv.2.2.2.1
  constructor
  · intro d st' hreg
    obtain ⟨hlt, -, hss, hse, hds, hde, hu, -, -⟩ := register_ok_spec hreg
    have hcap : tableCap st' = tableCap st := by
      unfold tableCap RTI_VlanGetRecordCount
      rw [hds, hde]
    have hsetup2 : RTI_VlanIsDynamicUninitialized st' = false := by
      unfold RTI_VlanIsDynamicUninitialized at hsetup ⊢
      rw [hss, hse, hds, hde]
      exact hsetup
    have huse2 : st'.usedCnt ≤ tableCap st' := by rw [hcap, hu]; omega
    refine ⟨⟨tableCap st - st.usedCnt - 1, ?_, ?_⟩, ?_⟩
    · rw [show tableCap st - st.usedCnt - 1 + 1 = tableCap st - st.usedCnt from by omega]
      exact getFreeCount_spec huse hsetup
    · rw [getFreeCount_spec huse2 hsetup2, hcap, hu]
      rw [show tableCap st - (st.usedCnt + 1) = tableCap st - st.usedCnt - 1 from by omega]
    · rw [getAllCount_spec hsetup2, getAllCount_spec hsetup, hcap]
  · intro id st' hunr
    obtain ⟨k, hkused, -, -, hss, hse, hds, hde, hu, -, -, -⟩ :=
      unregister_ok_spec hinv hunr
    have hcap : tableCap st' = tableCap st := by
      unfold tableCap RTI_VlanGetRecordCount
      rw [hds, hde]
    have hsetup2 : RTI_VlanIsDynamicUninitialized st' = false := by
      unfold RTI_VlanIsDynamicUninitialized at hsetup ⊢
      rw [hss, hse, hds, hde]
      exact hsetup
    have huse2 : st'.usedCnt ≤ tableCap st' := by rw [hcap]; omega
    refine ⟨⟨tableCap st - st.usedCnt, ?_, ?_⟩, ?_⟩
    · exact getFreeCount_spec huse hsetup
    · rw [getFreeCount_spec huse2 hsetup2, hcap]
      rw [show tableCap st - st'.usedCnt = tableCap st - st.usedCnt + 1 from by omega]
    · rw [getAllCount_spec hsetup2, getAllCount_spec hsetup, hcap]

/-- Witness for C9 on stDyn: free count 1 drops to 0 on register, rises to
2 on unregister; the total count 3 never moves. -/
theorem vlanCounts_frame_witness :
    InvTable stDyn ∧ RTI_VlanIsDynamicUninitialized stDyn = false ∧
    ((∃ f, RTI_VlanDynamicGetFreeCount stDyn (some ()) = (.RTI_OK, some (f + 1)) ∧
      RTI_VlanDynamicGetFreeCount stDynReg (some ()) = (.RTI_OK, some f)) ∧
      RTI_VlanDynamicGetAllCount stDynReg (some ()) =
        RTI_VlanDynamicGetAllCount stDyn (some ())) ∧
    ((∃ f, RTI_VlanDynamicGetFreeCount stDyn (some ()) = (.RTI_OK, some f) ∧
      RTI_VlanDynamicGetFreeCount stDynUnreg (some ()) = (.RTI_OK, some (f + 1))) ∧
      RTI_VlanDynamicGetAllCount stDynUnreg (some ()) =
        RTI_VlanDynamicGetAllCount stDyn (some ())) :=
  ⟨by decide, by decide,
    (vlanCounts_frame stDyn (by decide) (by decide)).1 ⟨12, 22, 3⟩ stDynReg rfl,
    (vlanCounts_frame stDyn (by decide) (by decide)).2 1 stDynUnreg rfl⟩

/-- C10 (amended): registering d and then selecting d.id returns a copy
equal to d in all fields, provided no occupied slot already carries the same
ID; without that proviso the earlier slot wins the scan. -/
theorem vlanRegisterSelect_roundtrip (st : VlanState) (d : RTI_VLAN_DESC)
    (st' : VlanState) (hinv : InvTable st)
    (hnodup : ∀ k, k < st.usedCnt → ∀ d2, slot st k = some d2 → d2.id ≠ d.id)
    (hreg : RTI_VlanDynamicRegister st (some d) = (.RTI_OK, st')) :
    RTIPriv_VlanSelect st' d.id = (.RTI_OK, some d) := by
  obtain ⟨hlt, -, -, -, hds, hde, hu, hslot, hother⟩ := register_ok_spec hreg
  have hinv2 := register_preserves_inv hinv hreg
  have hcap : tableCap st' = tableCap st := by
    unfold tableCap RTI_VlanGetRecordCount
    rw [hds, hde]
  have halign2 := invTable_align hinv2
  rw [hcap] at halign2
  refine select_found halign2 (by omega) hslot rfl ?_
  intro j hj
  rw [hother j (by omega)]
  cases hm : slot st j with
  | none => exact Or.inl rfl
  | some d2 => exact Or.inr ⟨d2, rfl, hnodup j (by omega) d2 hm⟩

/-- Counterexample for C10 as stated: stDyn already holds ID 1 in slot 0;
registering a second descriptor with ID 1 succeeds, but the immediate
Select(1) returns the older slot-0 descriptor, not the registered one. -/
theorem vlanRegisterSelect_roundtrip_cex :
    (RTI_VlanDynamicRegister stDyn (some ⟨77, 88, 1⟩)).1 = .RTI_OK ∧
    RTIPriv_VlanSelect (RTI_VlanDynamicRegister stDyn (some ⟨77, 88, 1⟩)).2 1 =
      (.RTI_OK, some ⟨10, 20, 1⟩) ∧
    (⟨10, 20, 1⟩ : RTI_VLAN_DESC) ≠ ⟨77, 88, 1⟩ := by decide

/-- Witness for C10: registering the fresh ID 3 into stDyn and selecting it
returns the registered descriptor. -/
theorem vlanRegisterSelect_roundtrip_witness :
    InvTable stDyn ∧
    RTIPriv_VlanSelect stDynReg 3 = (.RTI_OK, some ⟨12, 22, 3⟩) := by
  refine ⟨by decide, ?_⟩
  refine vlanRegisterSelect_roundtrip stDyn ⟨12, 22, 3⟩ stDynReg (by decide) ?_ rfl
  intro k hk d2 hd2
  have hk2 : k < 2 := hk
  clear hk
  interval_cases k
  · have h0 : slot stDyn 0 = some ⟨10, 20, 1⟩ := rfl
    rw [h0] at hd2
    rw [← Option.some.inj hd2]
    decide
  · have h1 : slot stDyn 1 = some ⟨11, 21, 2⟩ := rfl
    rw [h1] at hd2
    rw [← Option.some.inj hd2]
    decide

/-- C4 (amended): along every sequence of successful Register and
Unregister calls the occupied slots stay exactly the contiguous prefix
[0, usedCnt) with every later slot NULL; a successful Unregister shifts the
subsequent slots down by one, decrements the used count and leaves the
trailing slots NULL; and an Unregister of an absent id returns InvalidParam
unchanged provided the window is fully occupied — with a NULL slot in the
window the scan instead reads through the NULL record. -/
theorem vlanCompaction_invariant :
    (∀ st st', InvTable st → Relation.ReflTransGen VlanStep st st' → InvTable st') ∧
    (∀ st id st', InvTable st →
      RTIDFX_VlanTableUnregister st id = some (.RTI_OK, st') →
      ∃ k, k < st.usedCnt ∧ st'.usedCnt + 1 = st.usedCnt ∧
        (∀ j, j < k → slot st' j = slot st j) ∧
        (∀ j, k ≤ j → j + 1 < st.usedCnt → slot st' j = slot st (j + 1)) ∧
        (∀ j, st'.usedCnt ≤ j → j < tableCap st → slot st' j = none)) ∧
    (∀ st id, InvTable st → st.usedCnt = tableCap st →
      (∀ k, k < tableCap st → ∀ d, slot st k = some d → d.id ≠ id) →
      RTIDFX_VlanTableUnregister st id = some (.RTI_ERR_INVALID_PARAM, st)) := by
  refine ⟨?_, ?_, ?_⟩
  · intro st st' hinv hsteps
    induction hsteps with
    | refl => exact hinv
    | tail hab hbc ih =>
      rcases hbc with ⟨d, hreg⟩ | ⟨id, hunr⟩
      · exact register_preserves_inv ih hreg
      · exact unregister_preserves_inv ih hunr
  · intro st id st' hinv hunr
    obtain ⟨k, hkused, -, -, -, -, -, -, hu, hlow, hshift, hhigh⟩ :=
      unregister_ok_spec hinv hunr
    exact ⟨k, hkused, hu, hlow, hshift, hhigh⟩
  · intro st id hinv hfull habs
    exact unregister_full_absent hinv hfull habs

/-- Counterexample for C4 as stated: stC4 is a well-formed set-up table with
an empty slot, and Unregister of the absent id 9 does not return InvalidParam
leaving the state unchanged — the scan reads the NULL record in slot 1. -/
theorem vlanCompaction_invariant_cex :
    InvTable stC4 ∧ RTIDFX_VlanTableUnregister stC4 9 = none ∧
    RTIDFX_VlanTableUnregister stC4 9 ≠ some (.RTI_ERR_INVALID_PARAM, stC4) := by
  refine ⟨by decide, rfl, ?_⟩
  intro h
  rw [show RTIDFX_VlanTableUnregister stC4 9 = none from rfl] at h
  exact Option.noConfusion h

/-- Witness for C4: the invariant survives a register step and an
unregister step from the concrete table stDyn. -/
theorem vlanCompaction_invariant_witness :
    InvTable stDyn ∧ InvTable stDynReg ∧ InvTable stDynUnreg :=
  ⟨by decide,
    vlanCompaction_invariant.1 stDyn stDynReg (by decide)
      (Relation.ReflTransGen.single (Or.inl ⟨⟨12, 22, 3⟩, rfl⟩)),
    vlanCompaction_invariant.1 stDyn stDynUnreg (by decide)
      (Relation.ReflTransGen.single (Or.inr ⟨1, rfl⟩))⟩

theorem setup_ok {st : VlanState} {a sizeBytes : Nat}
    (h : ¬ sizeBytes < recSize * recordCntOld st) :
    RTI_VlanDynamicSetup st (some a) sizeBytes =
      (.RTI_OK, setupResult st a sizeBytes) := by
  simp only [RTI_VlanDynamicSetup]
  rw [if_neg h]
  rfl

/-- C2: a successful Setup zero-fills the new buffer, copies the first
recordCntOld records of the previously active window into it, repoints the
window to [a, a + sizeBytes) with capacity sizeBytes / recSize and carries
the used count over; every ID selectable before stays selectable with the
same descriptor value, and the count queries report the new capacity.
Stated under the caller contract of a record-aligned, non-overlapping buffer
away from the static boundary addresses. -/
theorem vlanSetup_migrates (st : VlanState) (a sizeBytes n : Nat)
    (halign : st.dynEnd = st.dynStart + recSize * n)
    (htail : ∀ k, k < n → recordCntOld st ≤ k → slot st k = none)
    (h8 : recSize ∣ sizeBytes)
    (hsz : recSize * recordCntOld st ≤ sizeBytes)
    (hov : a + sizeBytes < W64)
    (hdisj : st.dynStart + recSize * recordCntOld st ≤ a ∨ a + sizeBytes ≤ st.dynStart)
    (hsA : a ≠ st.statStart) (hsE : a + sizeBytes ≠ st.statEnd) :
    ∃ st', RTI_VlanDynamicSetup st (some a) sizeBytes = (.RTI_OK, st') ∧
      st'.dynStart = a ∧ st'.dynEnd = a + sizeBytes ∧
      st'.usedCnt = recordCntOld st ∧
      (∀ k, k < recordCntOld st → slot st' k = slot st k) ∧
      (∀ k, k < sizeBytes / recSize → recordCntOld st ≤ k → slot st' k = none) ∧
      (∀ vlanId d, RTIPriv_VlanSelect st vlanId = (.RTI_OK, some d) →
        RTIPriv_VlanSelect st' vlanId = (.RTI_OK, some d)) ∧
      RTI_VlanDynamicGetFreeCount st' (some ()) =
        (.RTI_OK, some (sizeBytes / recSize - recordCntOld st)) ∧
      RTI_VlanDynamicGetAllCount st' (some ()) =
        (.RTI_OK, some (sizeBytes / recSize)) := by
  obtain ⟨m, hm⟩ := h8
  have hdiv : sizeBytes / recSize = m := by
    rw [hm]
    simp [recSize]
  have hum : recordCntOld st ≤ m := by
    rw [hm] at hsz
    simp [recSize] at hsz
    omega
  have hmod : (a + sizeBytes) % W64 = a + sizeBytes := Nat.mod_eq_of_lt hov
  have hde2 : (setupResult st a sizeBytes).dynEnd = a + sizeBytes := by
    simp only [setupResult]
    exact hmod
  have hcopy : ∀ k, k < recordCntOld st →
      slot (setupResult st a sizeBytes) k = slot st k := by
    intro k hk
    simp only [slot, setupResult]
    rw [if_pos ⟨by omega, by simp only [recSize] at hk ⊢; omega⟩]
    rw [show a + recSize * k - a = recSize * k from by omega]
    rw [if_neg (by
      rcases hdisj with hd | hd <;>
        (simp only [recSize] at hd hk ⊢; omega))]
  have hzero : ∀ k, k < m → recordCntOld st ≤ k →
      slot (setupResult st a sizeBytes) k = none := by
    intro k hk1 hk2
    simp only [slot, setupResult]
    rw [if_neg (by simp only [recSize]; omega)]
    rw [if_pos ⟨by omega, by rw [hm]; simp only [recSize] at hk1 ⊢; omega⟩]
  have halign2 : (setupResult st a sizeBytes).dynEnd =
      (setupResult st a sizeBytes).dynStart + recSize * m := by
    rw [hde2, hm]
    simp only [setupResult]
  have hun2 : RTI_VlanIsDynamicUninitialized (setupResult st a sizeBytes) = false := by
    unfold RTI_VlanIsDynamicUninitialized
    simp only [setupResult]
    rw [hmod]
    simp [hsA, hsE]
  have hcap2 : tableCap (setupResult st a sizeBytes) = m := by
    unfold tableCap RTI_VlanGetRecordCount
    simp only [setupResult]
    rw [hmod, hm]
    have := @recCount_aligned a m (by rw [hm] at hov; omega)
    unfold RTI_VlanGetRecordCount at this
    exact this
  refine ⟨setupResult st a sizeBytes, setup_ok (by omega), rfl, hde2, rfl,
    hcopy, by rw [hdiv]; exact hzero, ?_, ?_, ?_⟩
  · intro vlanId d hsel
    obtain ⟨k, hk, hmem, hid, hfirst⟩ := select_inversion halign hsel
    have hku : k < recordCntOld st := by
      by_contra hge
      have hnone := htail k hk (by omega)
      rw [hnone] at hmem
      exact Option.noConfusion hmem
    refine @select_found (setupResult st a sizeBytes) vlanId m k d halign2 (by omega) ?_ hid ?_
    · rw [hcopy k hku]
      exact hmem
    · intro j hj
      rw [hcopy j (by omega)]
      exact hfirst j hj
  · rw [getFreeCount_spec (by rw [hcap2]; simpa using hum) hun2, hcap2, hdiv]
    rfl
  · rw [getAllCount_spec hun2, hcap2, hdiv]

/-- Witness for C2: graduating the two-descriptor static table to a
3-record buffer keeps IDs 1 and 2 selectable with the original descriptor
values, with one free record and three records in total. -/
theorem vlanSetup_migrates_witness :
    RTIPriv_VlanSelect stSetup2Post 1 = (.RTI_OK, some ⟨100, 200, 1⟩) ∧
    RTIPriv_VlanSelect stSetup2Post 2 = (.RTI_OK, some ⟨101, 201, 2⟩) ∧
    RTI_VlanDynamicGetFreeCount stSetup2Post (some ()) = (.RTI_OK, some 1) ∧
    RTI_VlanDynamicGetAllCount stSetup2Post (some ()) = (.RTI_OK, some 3) := by
  obtain ⟨st', hsetup, -, -, -, -, -, hsel, hfree, hall⟩ :=
    vlanSetup_migrates stStatic2 1000 24 2 (by decide) (by decide) (by decide)
      (by decide) (by decide) (Or.inl (by decide)) (by decide) (by decide)
  have hst : st' = stSetup2Post := (congrArg Prod.snd hsetup).symm
  subst hst
  exact ⟨hsel 1 ⟨100, 200, 1⟩ (by decide), hsel 2 ⟨101, 201, 2⟩ (by decide),
    hfree, hall⟩

end RouteIt
